import Mathlib

/-!
Shallow embedding of the Todo CRUD service in `src/main.py`.

The persisted table is modelled as a list of rows in insertion order
(SQLite returns rows of this table in rowid = insertion order for the
plain `select(Todo)` used by `all_todo`).  Each HTTP handler becomes a
pure function from the request data and the current store to a result
paired with the store after the request.  `HTTPException` mirrors
the FastAPI exception (status code plus detail string); raising it is
modelled by an `Except.error` result.  A handler returning normally is
an HTTP 200 response whose body is the returned value.
-/

namespace TodoApp

/-- Model of the `Todo` SQLModel table (main.py lines 20-23): `id : int | None`
(primary key, default `None`), `title : str`, `description : str | None`
(default `None`).  A Python `None` is `Option.none`; a Python `str` is
`String`, which cannot be null, exactly as `title : str` cannot. -/
structure Todo where
  id : Option Int
  title : String
  description : Option String
deriving Repr, DecidableEq

/-- The persisted table, rows in insertion order. -/
abbrev Store := List Todo

/-- Model of the FastAPI `HTTPException(status_code=..., detail=...)`. -/
structure HTTPException where
  status_code : Nat
  detail : String
deriving Repr, DecidableEq

/-- The fixed not-found error raised by `todo_by_id`, `update_todo` and
`delete_todo` (main.py lines 49, 62, 77), serialised by FastAPI as
HTTP 404 with body `{"detail": "Todo not found"}`. -/
def notFound : HTTPException :=
  ⟨404, "Todo not found"⟩

/-- Model of `session.get(Todo, todo_id)`: primary-key lookup, the row whose `id`
column equals `todo_id`, if any.  With a unique primary key at most one
row matches; the model takes the first match. -/
def sessionGet (s : Store) (todo_id : Int) : Option Todo :=
  match s with
  | [] => none
  | t :: ts => if t.id = some todo_id then some t else sessionGet ts todo_id

/-- The primary-key value SQLite assigns on insert when `id` is None:
one more than the largest id in use (1 on an empty table).  The exact
value is irrelevant to the spec; what matters is that it differs from
every stored id, which `freshId_not_mem` below proves. -/
def freshId (s : Store) : Int :=
  (s.filterMap Todo.id).foldr max 0 + 1

/-- Handler `create_todo` (main.py lines 31-36): the request body is parsed as a
full `Todo` (the table model itself), so it may carry an `id`.
`session.add` + `commit` inserts the row: a `None` id is assigned by the
database, an explicit id is used as given and the insert fails with an
integrity error (modelled as `none`, store unchanged) if that id is
already in use.  `session.refresh` re-reads the stored row, which the
handler returns. -/
def create_todo (todo : Todo) (s : Store) : Option Todo × Store :=
  match todo.id with
  | none =>
      (some ⟨some (freshId s), todo.title, todo.description⟩,
       s ++ [⟨some (freshId s), todo.title, todo.description⟩])
  | some i =>
      if (sessionGet s i).isSome then (none, s)
      else (some todo, s ++ [todo])

/-- Handler `all_todo` (main.py lines 39-42): `session.exec(select(Todo)).all()`,
every stored row, in stored (insertion) order.  Read-only. -/
def all_todo (s : Store) : List Todo :=
  s

/-- Handler `todo_by_id` (main.py lines 45-50): primary-key lookup, 404 if no
row matches, else the row.  Read-only, so the store is returned
unchanged. -/
def todo_by_id (todo_id : Int) (s : Store) : Except HTTPException Todo × Store :=
  match sessionGet s todo_id with
  | none => (.error notFound, s)
  | some t => (.ok t, s)

/-- Model of the `TodoUpdate` pydantic class (main.py lines 53-56):
`title : str | None = None`, `description : str | None = None`.  Both an
omitted JSON field and an explicit JSON `null` parse to Python `None`,
i.e. to `Option.none` here. -/
structure TodoUpdate where
  title : Option String
  description : Option String
deriving Repr, DecidableEq

/-- The field mutations of `update_todo` (main.py lines 63-66): each of
`title`/`description` is overwritten exactly when the parsed patch field
is not `None`. -/
def applyUpdate (u : TodoUpdate) (t : Todo) : Todo :=
  let t1 : Todo :=
    match u.title with
    | some v => ⟨t.id, v, t.description⟩
    | none => t
  match u.description with
  | some v => ⟨t1.id, t1.title, some v⟩
  | none => t1

/-- In-place mutation of the row fetched by primary key, then
`session.add` + `commit`: the first row whose id matches is replaced by
the mutated row, every other row is untouched. -/
def replaceById (s : Store) (todo_id : Int) (t2 : Todo) : Store :=
  match s with
  | [] => []
  | t :: ts =>
      if t.id = some todo_id then t2 :: ts
      else t :: replaceById ts todo_id t2

/-- Handler `update_todo` (main.py lines 58-70): 404 if no row matches,
else mutate the fetched row per `applyUpdate`, persist, and return the
updated row. -/
def update_todo (todo_id : Int) (u : TodoUpdate) (s : Store) :
    Except HTTPException Todo × Store :=
  match sessionGet s todo_id with
  | none => (.error notFound, s)
  | some t => (.ok (applyUpdate u t), replaceById s todo_id (applyUpdate u t))

/-- The success body of `delete_todo`:
`{"message": "Todo deleted successfully"}`. -/
structure DeleteResponse where
  message : String
deriving Repr, DecidableEq

/-- Model of `session.delete(todo)` + `commit`: removes the row fetched by
primary key (the first, and with a unique key the only, match). -/
def eraseById (s : Store) (todo_id : Int) : Store :=
  match s with
  | [] => []
  | t :: ts =>
      if t.id = some todo_id then ts
      else t :: eraseById ts todo_id

/-- Handler `delete_todo` (main.py lines 73-80): 404 if no row matches,
else remove the row and return the fixed success message. -/
def delete_todo (todo_id : Int) (s : Store) :
    Except HTTPException DeleteResponse × Store :=
  match sessionGet s todo_id with
  | none => (.error notFound, s)
  | some _ => (.ok ⟨"Todo deleted successfully"⟩, eraseById s todo_id)

/-- Wire-level JSON object field as it arrives for `update_todo`:
absent, explicit `null`, or a string value.  Pydantic parses the first
two to the `None` default of `TodoUpdate` and the third to the string. -/
inductive JsonField where
  | absent
  | null
  | value (s : String)
deriving Repr, DecidableEq

/-- Wire-level body of `PUT /todo/.../` before pydantic parsing. -/
structure TodoUpdateJson where
  title : JsonField
  description : JsonField
deriving Repr, DecidableEq

/-- Parsing of one pydantic `str | None = None` field: an absent field
takes the default `None`, an explicit `null` is also `None`. -/
def parseField : JsonField → Option String
  | .absent => none
  | .null => none
  | .value s => some s

/-- Parsing of the whole `TodoUpdate` body. -/
def parseTodoUpdate (j : TodoUpdateJson) : TodoUpdate :=
  ⟨parseField j.title, parseField j.description⟩

/-- The data-model invariant: every persisted row has a non-null id.
(`title` is a Lean `String` mirroring Python `str`, hence non-null by
type.) -/
def allIdsPresent (s : Store) : Prop :=
  ∀ t ∈ s, t.id ≠ none

/-- Primary-key uniqueness: the stored ids are pairwise distinct. -/
def idsNodup (s : Store) : Prop :=
  (s.filterMap Todo.id).Nodup

/-! Helper lemmas about the store operations. -/

theorem le_foldr_max (l : List Int) (x : Int) (hx : x ∈ l) :
    x ≤ l.foldr max 0 := by
  induction l with
  | nil => cases hx
  | cons a l ih =>
    simp only [List.foldr_cons]
    rcases List.mem_cons.mp hx with rfl | h
    · exact le_max_left _ _
    · exact le_trans (ih h) (le_max_right _ _)

theorem id_ne_freshId (s : Store) (t : Todo) (ht : t ∈ s) :
    t.id ≠ some (freshId s) := by
  intro hid
  have hmem : freshId s ∈ s.filterMap Todo.id :=
    List.mem_filterMap.mpr ⟨t, ht, hid⟩
  have hle := le_foldr_max _ _ hmem
  have h2 : (s.filterMap Todo.id).foldr max 0 + 1 ≤ (s.filterMap Todo.id).foldr max 0 := by
    simp only [freshId] at hle
    exact hle
  omega

theorem sessionGet_eq_none (s : Store) (i : Int) (h : ∀ t ∈ s, t.id ≠ some i) :
    sessionGet s i = none := by
  induction s with
  | nil => rfl
  | cons a l ih =>
    simp only [sessionGet]
    rw [if_neg (h a (List.mem_cons_self a l))]
    exact ih fun t ht => h t (List.mem_cons_of_mem a ht)

theorem sessionGet_mem (s : Store) (i : Int) (t : Todo)
    (h : sessionGet s i = some t) : t ∈ s ∧ t.id = some i := by
  induction s with
  | nil => cases h
  | cons a l ih =>
    by_cases ha : a.id = some i
    · simp only [sessionGet, if_pos ha] at h
      cases h
      exact ⟨List.mem_cons_self _ _, ha⟩
    · simp only [sessionGet, if_neg ha] at h
      obtain ⟨h1, h2⟩ := ih h
      exact ⟨List.mem_cons_of_mem a h1, h2⟩

theorem sessionGet_append (s l : Store) (i : Int) (h : sessionGet s i = none) :
    sessionGet (s ++ l) i = sessionGet l i := by
  induction s with
  | nil => rfl
  | cons a as ih =>
    simp only [sessionGet, List.cons_append] at h ⊢
    by_cases ha : a.id = some i
    · rw [if_pos ha] at h
      cases h
    · rw [if_neg ha] at h ⊢
      exact ih h

theorem sessionGet_replaceById (s : Store) (i : Int) (t t2 : Todo)
    (h : sessionGet s i = some t) (h2 : t2.id = some i) :
    sessionGet (replaceById s i t2) i = some t2 := by
  induction s with
  | nil => cases h
  | cons a as ih =>
    by_cases ha : a.id = some i
    · simp only [replaceById, if_pos ha, sessionGet, if_pos h2]
    · simp only [sessionGet, if_neg ha] at h
      simp only [replaceById, if_neg ha, sessionGet, if_neg ha]
      exact ih h

theorem mem_replaceById (s : Store) (i : Int) (t2 r : Todo)
    (h : r ∈ replaceById s i t2) : r = t2 ∨ r ∈ s := by
  induction s with
  | nil =>
    simp only [replaceById] at h
    exact absurd h (List.not_mem_nil r)
  | cons a as ih =>
    by_cases ha : a.id = some i
    · simp only [replaceById, if_pos ha] at h
      rcases List.mem_cons.mp h with rfl | h
      · exact Or.inl rfl
      · exact Or.inr (List.mem_cons_of_mem a h)
    · simp only [replaceById, if_neg ha] at h
      rcases List.mem_cons.mp h with rfl | h
      · exact Or.inr (List.mem_cons_self _ _)
      · rcases ih h with h1 | h1
        · exact Or.inl h1
        · exact Or.inr (List.mem_cons_of_mem a h1)

theorem mem_replaceById_of_ne (s : Store) (i : Int) (t2 r : Todo)
    (hr : r ∈ s) (hne : r.id ≠ some i) : r ∈ replaceById s i t2 := by
  induction s with
  | nil => cases hr
  | cons a as ih =>
    rcases List.mem_cons.mp hr with rfl | hr2
    · simp only [replaceById, if_neg hne]
      exact List.mem_cons_self r _
    · by_cases ha : a.id = some i
      · simp only [replaceById, if_pos ha]
        exact List.mem_cons_of_mem t2 hr2
      · simp only [replaceById, if_neg ha]
        exact List.mem_cons_of_mem a (ih hr2)

theorem length_replaceById (s : Store) (i : Int) (t2 : Todo) :
    (replaceById s i t2).length = s.length := by
  induction s with
  | nil => rfl
  | cons a as ih =>
    by_cases ha : a.id = some i
    · simp [replaceById, if_pos ha]
    · simp [replaceById, if_neg ha, ih]

theorem eraseById_sublist (s : Store) (i : Int) :
    (eraseById s i).Sublist s := by
  induction s with
  | nil => exact List.Sublist.refl []
  | cons a as ih =>
    by_cases ha : a.id = some i
    · simp only [eraseById, if_pos ha]
      exact List.Sublist.cons a (List.Sublist.refl as)
    · simp only [eraseById, if_neg ha]
      exact List.Sublist.cons₂ a ih

theorem length_eraseById (s : Store) (i : Int) (t : Todo)
    (h : sessionGet s i = some t) : (eraseById s i).length + 1 = s.length := by
  induction s with
  | nil => cases h
  | cons a as ih =>
    by_cases ha : a.id = some i
    · simp [eraseById, if_pos ha]
    · simp only [sessionGet, if_neg ha] at h
      have := ih h
      simp only [eraseById, if_neg ha, List.length_cons]
      omega

theorem idsNodup_tail (a : Todo) (as : Store) (hnd : idsNodup (a :: as)) :
    idsNodup as := by
  simp only [idsNodup, List.filterMap_cons] at hnd ⊢
  cases haid : a.id with
  | none => rw [haid] at hnd; exact hnd
  | some v => rw [haid] at hnd; exact (List.nodup_cons.mp hnd).2

theorem sessionGet_eraseById (s : Store) (i : Int) (hnd : idsNodup s) :
    sessionGet (eraseById s i) i = none := by
  induction s with
  | nil => rfl
  | cons a as ih =>
    by_cases ha : a.id = some i
    · simp only [eraseById, if_pos ha]
      apply sessionGet_eq_none
      intro t ht hid
      have hmem : i ∈ as.filterMap Todo.id := List.mem_filterMap.mpr ⟨t, ht, hid⟩
      have hnd2 : (List.filterMap Todo.id (a :: as)).Nodup := hnd
      rw [List.filterMap_cons, ha] at hnd2
      exact (List.nodup_cons.mp hnd2).1 hmem
    · simp only [eraseById, if_neg ha, sessionGet, if_neg ha]
      exact ih (idsNodup_tail a as hnd)

/-! Claim theorems. -/

/-- C1: for every stored Todo with id `i`, `update(i, patch)` overwrites
exactly those of title/description present in the (parsed) patch, leaves
every omitted field at its prior value, keeps the id, persists the
updated row in place of the old one (every row with a different id is
untouched, and the table keeps its size), and returns the full updated
entity. -/
theorem update_overwrites_present_fields (s : Store) (i : Int) (u : TodoUpdate)
    (t : Todo) (h : sessionGet s i = some t) :
    update_todo i u s = (.ok (applyUpdate u t), replaceById s i (applyUpdate u t)) ∧
    (applyUpdate u t).title = u.title.getD t.title ∧
    (applyUpdate u t).description = (u.description.map some).getD t.description ∧
    (applyUpdate u t).id = t.id ∧
    sessionGet (replaceById s i (applyUpdate u t)) i = some (applyUpdate u t) ∧
    (replaceById s i (applyUpdate u t)).length = s.length ∧
    ∀ r ∈ s, r.id ≠ some i → r ∈ replaceById s i (applyUpdate u t) := by
  have hid : (applyUpdate u t).id = t.id := by
    obtain ⟨ut, ud⟩ := u
    cases ut <;> cases ud <;> simp [applyUpdate]
  refine ⟨?_, ?_, ?_, hid, ?_, length_replaceById s i _, ?_⟩
  · simp [update_todo, h]
  · obtain ⟨ut, ud⟩ := u
    cases ut <;> cases ud <;> simp [applyUpdate]
  · obtain ⟨ut, ud⟩ := u
    cases ut <;> cases ud <;> simp [applyUpdate]
  · exact sessionGet_replaceById s i t _ h (hid.trans (sessionGet_mem s i t h).2)
  · intro r hr hne
    exact mem_replaceById_of_ne s i _ r hr hne

/-- Witness for C1: a concrete partial update changing only the title. -/
theorem update_overwrites_present_fields_witness :
    sessionGet [⟨some 1, "a", some "b"⟩] 1 = some ⟨some 1, "a", some "b"⟩ ∧
    update_todo 1 ⟨some "New", none⟩ [⟨some 1, "a", some "b"⟩] =
      (.ok (applyUpdate ⟨some "New", none⟩ ⟨some 1, "a", some "b"⟩),
       replaceById [⟨some 1, "a", some "b"⟩] 1
         (applyUpdate ⟨some "New", none⟩ ⟨some 1, "a", some "b"⟩)) :=
  ⟨by decide,
   (update_overwrites_present_fields [⟨some 1, "a", some "b"⟩] 1 ⟨some "New", none⟩
     ⟨some 1, "a", some "b"⟩ (by decide)).1⟩

/-- C2: for every id with no matching row, each of get, update and
delete fails with the same fixed 404 `HTTPException` (detail
"Todo not found"), leaving the store unchanged; and this `notFound`
exception is the only error any of the three handlers ever raises. -/
theorem notfound_uniform (i : Int) (u : TodoUpdate) (s : Store)
    (eg eu ed : HTTPException) :
    (sessionGet s i = none →
       todo_by_id i s = (.error notFound, s) ∧
       update_todo i u s = (.error notFound, s) ∧
       delete_todo i s = (.error notFound, s)) ∧
    ((todo_by_id i s).fst = .error eg → eg = notFound) ∧
    ((update_todo i u s).fst = .error eu → eu = notFound) ∧
    ((delete_todo i s).fst = .error ed → ed = notFound) := by
  refine ⟨?_, ?_, ?_, ?_⟩
  · intro h
    refine ⟨?_, ?_, ?_⟩ <;> simp [todo_by_id, update_todo, delete_todo, h]
  · intro he
    cases hg : sessionGet s i with
    | none =>
      simp only [todo_by_id, hg] at he
      exact (Except.error.inj he).symm
    | some t => simp [todo_by_id, hg] at he
  · intro he
    cases hg : sessionGet s i with
    | none =>
      simp only [update_todo, hg] at he
      exact (Except.error.inj he).symm
    | some t => simp [update_todo, hg] at he
  · intro he
    cases hg : sessionGet s i with
    | none =>
      simp only [delete_todo, hg] at he
      exact (Except.error.inj he).symm
    | some t => simp [delete_todo, hg] at he

/-- Witness for C2: get, update and delete all 404 on an empty store. -/
theorem notfound_uniform_witness :
    todo_by_id 0 ([] : Store) = (.error notFound, []) ∧
    update_todo 0 ⟨none, none⟩ [] = (.error notFound, []) ∧
    delete_todo 0 [] = (.error notFound, []) :=
  (notfound_uniform 0 ⟨none, none⟩ [] notFound notFound notFound).1 rfl

/-- C3: a create request carrying a title and a description (and, as on
every well-formed creation request, no id) succeeds and returns the full
stored row, whose title and description are exactly the request values
and whose id is non-null. -/
theorem create_returns_fields (todo : Todo) (s : Store) (h : todo.id = none) :
    create_todo todo s =
      (some ⟨some (freshId s), todo.title, todo.description⟩,
       s ++ [⟨some (freshId s), todo.title, todo.description⟩]) ∧
    (some (freshId s) : Option Int) ≠ none := by
  constructor
  · simp [create_todo, h]
  · simp

/-- Witness for C3: creating `{title: "T", description: "D"}` on an
empty store. -/
theorem create_returns_fields_witness :
    create_todo ⟨none, "T", some "D"⟩ [] =
      (some ⟨some (freshId []), "T", some "D"⟩,
       [] ++ [⟨some (freshId []), "T", some "D"⟩]) ∧
    (some (freshId []) : Option Int) ≠ none :=
  create_returns_fields ⟨none, "T", some "D"⟩ [] rfl

/-- C4: deleting a stored Todo succeeds (HTTP 200 with body
`{"message": "Todo deleted successfully"}`), removes exactly that row
permanently (the remaining table is a sublist one row shorter), and a
subsequent get of the same id returns the 404 not-found error on the
post-delete store. -/
theorem delete_removes_row (s : Store) (i : Int) (t : Todo)
    (hnd : idsNodup s) (h : sessionGet s i = some t) :
    delete_todo i s = (.ok ⟨"Todo deleted successfully"⟩, eraseById s i) ∧
    (eraseById s i).Sublist s ∧
    (eraseById s i).length + 1 = s.length ∧
    sessionGet (eraseById s i) i = none ∧
    todo_by_id i (eraseById s i) = (.error notFound, eraseById s i) := by
  have h4 : sessionGet (eraseById s i) i = none := sessionGet_eraseById s i hnd
  refine ⟨?_, eraseById_sublist s i, length_eraseById s i t h, h4, ?_⟩
  · simp [delete_todo, h]
  · simp [todo_by_id, h4]

/-- Witness for C4: deleting the only row of a one-row store. -/
theorem delete_removes_row_witness :
    delete_todo 1 [⟨some 1, "a", none⟩] =
      (.ok ⟨"Todo deleted successfully"⟩, eraseById [⟨some 1, "a", none⟩] 1) ∧
    sessionGet (eraseById [⟨some 1, "a", none⟩] 1) 1 = none :=
  have h := delete_removes_row [⟨some 1, "a", none⟩] 1 ⟨some 1, "a", none⟩
    (by simp [idsNodup]) (by decide)
  ⟨h.1, h.2.2.2.1⟩

/-- C5: `all_todo` returns exactly the stored rows, each once, in stored
(insertion) order, and every successful create appends its new row at
the end of that sequence, so the listing order is creation order. -/
theorem list_all_insertion_order (s : Store) (t r : Todo) (s2 : Store) :
    all_todo s = s ∧
    (create_todo t s = (some r, s2) → all_todo s2 = all_todo s ++ [r]) := by
  refine ⟨rfl, ?_⟩
  intro h
  cases ht : t.id with
  | none =>
    simp only [create_todo, ht] at h
    rw [Prod.mk.injEq] at h
    obtain ⟨h1, rfl⟩ := h
    obtain rfl := Option.some.inj h1
    rfl
  | some j =>
    simp only [create_todo, ht] at h
    by_cases hg : (sessionGet s j).isSome
    · rw [if_pos hg] at h
      rw [Prod.mk.injEq] at h
      exact absurd h.1 (by simp)
    · rw [if_neg hg] at h
      rw [Prod.mk.injEq] at h
      obtain ⟨h1, rfl⟩ := h
      obtain rfl := Option.some.inj h1
      rfl

/-- Witness for C5: a concrete create appends its row to the listing. -/
theorem list_all_insertion_order_witness :
    all_todo ([] : Store) = [] ∧
    all_todo [⟨some 1, "T", none⟩] = all_todo [] ++ [⟨some 1, "T", none⟩] :=
  have h := list_all_insertion_order [] ⟨none, "T", none⟩ ⟨some 1, "T", none⟩
    [⟨some 1, "T", none⟩]
  ⟨h.1, h.2 (by decide)⟩

/-- C6: round-trip: any row returned by a successful create has a
non-null id, and an immediate get by that id on the post-create store
returns exactly the representation the create response carried. -/
theorem create_get_roundtrip (t : Todo) (s : Store) (r : Todo) (s2 : Store)
    (h : create_todo t s = (some r, s2)) :
    r.id ≠ none ∧ todo_by_id (r.id.getD 0) s2 = (.ok r, s2) := by
  cases ht : t.id with
  | none =>
    simp only [create_todo, ht] at h
    rw [Prod.mk.injEq] at h
    obtain ⟨h1, rfl⟩ := h
    obtain rfl := Option.some.inj h1
    have hnone : sessionGet s (freshId s) = none :=
      sessionGet_eq_none s (freshId s) fun t2 ht2 => id_ne_freshId s t2 ht2
    have happ : sessionGet (s ++ [⟨some (freshId s), t.title, t.description⟩]) (freshId s) =
        some ⟨some (freshId s), t.title, t.description⟩ := by
      rw [sessionGet_append s _ _ hnone]
      simp [sessionGet]
    exact ⟨by simp, by simp [todo_by_id, happ]⟩
  | some j =>
    simp only [create_todo, ht] at h
    by_cases hg : (sessionGet s j).isSome
    · rw [if_pos hg] at h
      rw [Prod.mk.injEq] at h
      exact absurd h.1 (by simp)
    · rw [if_neg hg] at h
      rw [Prod.mk.injEq] at h
      obtain ⟨h1, rfl⟩ := h
      obtain rfl := Option.some.inj h1
      have hnone : sessionGet s j = none := Option.not_isSome_iff_eq_none.mp hg
      have happ : sessionGet (s ++ [t]) j = some t := by
        rw [sessionGet_append s _ _ hnone]
        simp [sessionGet, ht]
      refine ⟨by simp [ht], ?_⟩
      simp [todo_by_id, ht, happ]

/-- Witness for C6: create on an empty store, then get by the returned
id. -/
theorem create_get_roundtrip_witness :
    Todo.id ⟨some 1, "T", none⟩ ≠ none ∧
    todo_by_id ((Todo.id ⟨some 1, "T", none⟩).getD 0) [⟨some 1, "T", none⟩] =
      (.ok ⟨some 1, "T", none⟩, [⟨some 1, "T", none⟩]) :=
  create_get_roundtrip ⟨none, "T", none⟩ [] ⟨some 1, "T", none⟩
    [⟨some 1, "T", none⟩] (by decide)

/-- C7: the data-model invariant that every persisted row has a non-null
id is preserved by every operation: create, update and delete preserve
it on the store they return, while get and list leave the store
untouched.  (Non-null `title` holds in every state by the type `String`
of the `title` column.) -/
theorem invariant_preserved (s : Store) (t r : Todo) (s2 : Store) (i : Int)
    (u : TodoUpdate) (t2 : Todo) (s3 : Store)
    (d : Except HTTPException DeleteResponse) (s4 : Store)
    (h : allIdsPresent s) :
    (create_todo t s = (some r, s2) → allIdsPresent s2) ∧
    (update_todo i u s = (.ok t2, s3) → allIdsPresent s3) ∧
    (delete_todo i s = (d, s4) → allIdsPresent s4) ∧
    (todo_by_id i s).snd = s ∧
    all_todo s = s := by
  refine ⟨?_, ?_, ?_, ?_, rfl⟩
  · intro hc
    cases ht : t.id with
    | none =>
      simp only [create_todo, ht] at hc
      rw [Prod.mk.injEq] at hc
      obtain ⟨h1, rfl⟩ := hc
      intro x hx
      rcases List.mem_append.mp hx with hx1 | hx1
      · exact h x hx1
      · simp only [List.mem_singleton] at hx1
        subst hx1
        simp
    | some j =>
      simp only [create_todo, ht] at hc
      by_cases hg : (sessionGet s j).isSome
      · rw [if_pos hg] at hc
        rw [Prod.mk.injEq] at hc
        exact absurd hc.1 (by simp)
      · rw [if_neg hg] at hc
        rw [Prod.mk.injEq] at hc
        obtain ⟨h1, rfl⟩ := hc
        intro x hx
        rcases List.mem_append.mp hx with hx1 | hx1
        · exact h x hx1
        · simp only [List.mem_singleton] at hx1
          subst hx1
          simp [ht]
  · intro hu
    cases hg : sessionGet s i with
    | none => simp [update_todo, hg] at hu
    | some t3 =>
      simp only [update_todo, hg] at hu
      rw [Prod.mk.injEq] at hu
      obtain ⟨h1, rfl⟩ := hu
      intro x hx
      rcases mem_replaceById s i _ x hx with rfl | hx1
      · have hid : (applyUpdate u t3).id = t3.id := by
          obtain ⟨ut, ud⟩ := u
          cases ut <;> cases ud <;> simp [applyUpdate]
        rw [hid]
        exact h t3 (sessionGet_mem s i t3 hg).1
      · exact h x hx1
  · intro hd
    cases hg : sessionGet s i with
    | none =>
      simp only [delete_todo, hg] at hd
      rw [Prod.mk.injEq] at hd
      obtain ⟨h1, rfl⟩ := hd
      exact h
    | some t3 =>
      simp only [delete_todo, hg] at hd
      rw [Prod.mk.injEq] at hd
      obtain ⟨h1, rfl⟩ := hd
      intro x hx
      exact h x ((eraseById_sublist s i).mem hx)
  · simp only [todo_by_id]
    cases hg : sessionGet s i <;> rfl

/-- Witness for C7: the invariant holds on the store produced by a
concrete create on the empty store. -/
theorem invariant_preserved_witness :
    allIdsPresent [⟨some 1, "T", none⟩] :=
  (invariant_preserved [] ⟨none, "T", none⟩ ⟨some 1, "T", none⟩
    [⟨some 1, "T", none⟩] 0 ⟨none, none⟩ ⟨some 1, "T", none⟩ []
    (.error notFound) []
    (fun x hx => absurd hx (List.not_mem_nil x))).1 (by decide)

/-- C8 counterexample: the create request body is the table model
itself, so it may carry a non-null id, and a successful insert then
stores exactly that id: `{id: 42, title: "chosen"}` on an empty store
persists a row with id 42.  Hence it is false that the id "is absent or
null on every creation request" or that "a creation request cannot
choose the id of the stored row". -/
theorem create_request_chooses_id :
    create_todo ⟨some 42, "chosen", none⟩ [] =
      (some ⟨some 42, "chosen", none⟩, [⟨some 42, "chosen", none⟩]) ∧
    ¬ ∀ (t : Todo) (s : Store) (r : Todo) (s2 : Store),
        create_todo t s = (some r, s2) → t.id = none :=
  ⟨by decide, fun hall => by
    have h42 := hall ⟨some 42, "chosen", none⟩ [] ⟨some 42, "chosen", none⟩
      [⟨some 42, "chosen", none⟩] (by decide)
    exact absurd h42 (by decide)⟩

/-- C8 amended: when the creation request omits the id (JSON absent or
null), the persistence layer assigns a fresh id not equal to any stored
id; but a creation request carrying a non-null id chooses the stored
id of the stored row, the insert failing (store unchanged) exactly when that id is
already in use. -/
theorem create_id_assignment (t : Todo) (s : Store) (i : Int) (r : Todo)
    (s2 : Store) :
    (t.id = none →
       create_todo t s =
         (some ⟨some (freshId s), t.title, t.description⟩,
          s ++ [⟨some (freshId s), t.title, t.description⟩]) ∧
       sessionGet s (freshId s) = none) ∧
    (t.id = some i → create_todo t s = (some r, s2) →
       r = t ∧ r.id = some i ∧ sessionGet s i = none) := by
  constructor
  · intro h
    refine ⟨by simp [create_todo, h], ?_⟩
    exact sessionGet_eq_none s (freshId s) fun t2 ht2 => id_ne_freshId s t2 ht2
  · intro h hc
    simp only [create_todo, h] at hc
    by_cases hg : (sessionGet s i).isSome
    · rw [if_pos hg] at hc
      rw [Prod.mk.injEq] at hc
      exact absurd hc.1 (by simp)
    · rw [if_neg hg] at hc
      rw [Prod.mk.injEq] at hc
      obtain ⟨h1, rfl⟩ := hc
      obtain rfl := Option.some.inj h1
      exact ⟨rfl, h, Option.not_isSome_iff_eq_none.mp hg⟩

/-- Witness for the amended C8: an id-less create on the empty store
gets the fresh system-assigned id. -/
theorem create_id_assignment_witness :
    create_todo ⟨none, "T", none⟩ [] =
      (some ⟨some (freshId []), "T", none⟩,
       [] ++ [⟨some (freshId []), "T", none⟩]) ∧
    sessionGet [] (freshId []) = none :=
  (create_id_assignment ⟨none, "T", none⟩ [] 0 ⟨none, "T", none⟩ []).1 rfl

/-- C9: pydantic parses an explicit JSON `null` for either update field
exactly like an absent field (both become the `None` default), so the
handler result is identical on the two request bodies; consequently an
update can never clear a non-null description back to null. -/
theorem null_treated_as_absent (j : TodoUpdateJson) (i : Int) (u : TodoUpdate)
    (s : Store) (t t2 : Todo) (s2 : Store) :
    (update_todo i (parseTodoUpdate ⟨j.title, .null⟩) s =
       update_todo i (parseTodoUpdate ⟨j.title, .absent⟩) s ∧
     update_todo i (parseTodoUpdate ⟨.null, j.description⟩) s =
       update_todo i (parseTodoUpdate ⟨.absent, j.description⟩) s) ∧
    (sessionGet s i = some t → t.description ≠ none →
       update_todo i u s = (.ok t2, s2) → t2.description ≠ none) := by
  refine ⟨⟨rfl, rfl⟩, ?_⟩
  intro hg hd hu
  simp only [update_todo, hg] at hu
  rw [Prod.mk.injEq] at hu
  obtain ⟨h1, rfl⟩ := hu
  obtain rfl := Except.ok.inj h1
  obtain ⟨ut, ud⟩ := u
  obtain ⟨ti, tt, td⟩ := t
  cases ut <;> cases ud <;> simp_all [applyUpdate]

/-- Witness for C9: an update with both fields absent on a one-row
store leaves the non-null description non-null. -/
theorem null_treated_as_absent_witness :
    Todo.description ⟨some 1, "a", some "b"⟩ ≠ none :=
  (null_treated_as_absent ⟨.absent, .absent⟩ 1 ⟨none, none⟩
    [⟨some 1, "a", some "b"⟩] ⟨some 1, "a", some "b"⟩
    ⟨some 1, "a", some "b"⟩ [⟨some 1, "a", some "b"⟩]).2
    (by decide) (by decide) (by rfl)

/-- C10: whenever get, update or delete raises an error, the store
component of its result is the input store: the failing request inserts,
mutates and removes nothing (get in fact never changes the store). -/
theorem error_leaves_store_unchanged (i : Int) (u : TodoUpdate) (s : Store)
    (e : HTTPException) :
    ((todo_by_id i s).fst = .error e → (todo_by_id i s).snd = s) ∧
    ((update_todo i u s).fst = .error e → (update_todo i u s).snd = s) ∧
    ((delete_todo i s).fst = .error e → (delete_todo i s).snd = s) ∧
    (todo_by_id i s).snd = s := by
  cases hg : sessionGet s i <;>
    simp [todo_by_id, update_todo, delete_todo, hg]

/-- Witness for C10: the three failing handlers on the empty store
return it unchanged. -/
theorem error_leaves_store_unchanged_witness :
    (todo_by_id 0 ([] : Store)).snd = [] ∧
    (update_todo 0 ⟨none, none⟩ []).snd = [] ∧
    (delete_todo 0 []).snd = [] :=
  have h := error_leaves_store_unchanged 0 ⟨none, none⟩ [] notFound
  ⟨h.1 rfl, h.2.1 rfl, h.2.2.1 rfl⟩

end TodoApp
